import Mathlib

/-!
Verification of the GitHub content fetcher (`github_rag` package).

The definitions below are shallow embeddings of the Python source:

* `runExec`            — the retry loop of `GitHubClient._make_request`
                         (github_client.py, lines 219-347), driven by a script
                         of HTTP responses;
* `collectAll`         — the pagination loop shared by `fetch_issues`,
                         `fetch_pull_requests` and `fetch_commits`
                         (lines 406-438, 480-507, 587-616);
* `sortParams` / `get_cache_key`
                       — `GitHubClient._get_cache_key` (lines 82-86), modelled
                         at the canonical pre-hash level: `json.dumps(params,
                         sort_keys=True)` sorts the keys, and the md5 digest of
                         the canonical string is modelled by the canonical
                         (url, sorted parameter list) pair itself;
* `get_from_cache`     — `GitHubClient._get_from_cache` (lines 88-111);
* `fetch_pr_details`   — `GitHubClient.fetch_pr_details` (lines 509-544);
* `walkItem` / `walkItems` / `fetch_code_files`
                       — `GitHubClient.fetch_code_files` (lines 688-833), with
                         the remote tree and every network interaction given
                         by an oracle value;
* `load_content_type_code`
                       — the `"code"` branch of
                         `GitHubDataLoader._load_content_type`
                         (data_loader.py, lines 60-65).

Machine side effects (logging, statistics counters, disk writes) are dropped;
sleeps are recorded symbolically in an event trace so that statements about
when and how long the executor waits remain faithful.
-/

namespace GithubRag

/-- A sleep performed by the retry loop, recorded symbolically.
`rlWait s` is the quota-exhaustion wait `max(reset - now, 0) + 2`;
`retryAfterWait s` honours a `Retry-After` header; `backoff a` is the
exponential backoff `2^a + jitter` taken with the attempt counter at `a`. -/
inductive SleepEvent where
  | rlWait (seconds : Int)
  | retryAfterWait (seconds : Nat)
  | backoff (attempt : Nat)
deriving Repr, DecidableEq

/-- One scripted HTTP exchange observed by `_make_request`.  `netFail` models
`requests.exceptions.RequestException` (no HTTP response at all); otherwise
`status` is the HTTP status, `payload` is `response.json()`, the `*Hdr`
fields are the `X-RateLimit-*` headers, `retryAfter` the optional
`Retry-After` header, and `now` the value `time.time()` would return while
this response is handled. -/
structure Resp (α : Type) where
  netFail : Bool
  status : Nat
  payload : α
  hasRemainingHdr : Bool
  remainingHdr : Nat
  resetHdr : Int
  retryAfter : Option Nat
  now : Int
deriving Repr, DecidableEq

/-- Observable outcome of one `_make_request` call: the returned value
(`none` models Python `None`), the number of HTTP calls issued, the sleeps
performed in order, and the final value of the `retries` counter. -/
structure ExecResult (α : Type) where
  result : Option α
  httpCalls : Nat
  sleeps : List SleepEvent
  retriesUsed : Nat
deriving Repr, DecidableEq

/-- The retry loop of `GitHubClient._make_request` (github_client.py,
lines 223-347), on the cache-miss path.  `script` supplies the successive
responses; a script that runs out behaves as if the loop stopped there
(theorems only use scripts long enough for the run they describe).
Branch order mirrors the source: network exception, then 200/201, then
403/429 (quota-exhausted wait, then `Retry-After`, then backoff), then the
non-retryable statuses 401/404/422, then backoff for everything else. -/
def runExec {α : Type} (maxRetries retries : Nat) (script : List (Resp α)) :
    ExecResult α :=
  if _h : retries < maxRetries then
    match script with
    | [] => ⟨none, 0, [], retries⟩
    | r :: rest =>
      if r.netFail then
        let res := runExec maxRetries (retries + 1) rest
        ⟨res.result, res.httpCalls + 1, SleepEvent.backoff retries :: res.sleeps,
          res.retriesUsed⟩
      else if r.status = 200 ∨ r.status = 201 then
        ⟨some r.payload, 1, [], retries⟩
      else if r.status = 403 ∨ r.status = 429 then
        if r.hasRemainingHdr = true ∧ r.remainingHdr = 0 then
          let res := runExec maxRetries (retries + 1) rest
          ⟨res.result, res.httpCalls + 1,
            SleepEvent.rlWait (max (r.resetHdr - r.now) 0 + 2) :: res.sleeps,
            res.retriesUsed⟩
        else if r.status = 429 ∧ r.retryAfter.isSome then
          let res := runExec maxRetries (retries + 1) rest
          ⟨res.result, res.httpCalls + 1,
            SleepEvent.retryAfterWait (r.retryAfter.getD 0) :: res.sleeps,
            res.retriesUsed⟩
        else
          let res := runExec maxRetries (retries + 1) rest
          ⟨res.result, res.httpCalls + 1, SleepEvent.backoff retries :: res.sleeps,
            res.retriesUsed⟩
      else if r.status = 401 ∨ r.status = 404 ∨ r.status = 422 then
        ⟨none, 1, [], retries⟩
      else
        let res := runExec maxRetries (retries + 1) rest
        ⟨res.result, res.httpCalls + 1, SleepEvent.backoff retries :: res.sleeps,
          res.retriesUsed⟩
  else ⟨none, 0, [], retries⟩

/-- The pagination loop shared by `fetch_issues`, `fetch_pull_requests` and
`fetch_commits`.  The `n`-th script entry is the `_make_request` result for
page `n+1` (pages are requested with an incrementing `page` parameter and
fixed `per_page = perPage`); `none` models a failed page (`_make_request`
returned `None`).  Returns the accumulated records and the number of pages
requested.  Mirrors the source: stop on an absent or empty page, apply
`keep` to the raw page before accumulating, stop after accumulating a page
whose raw length is `< perPage`. -/
def collectAll {α : Type} (perPage : Nat) (keep : α → Bool) :
    List (Option (List α)) → List α × Nat
  | [] => ([], 0)
  | none :: _ => ([], 1)
  | some pg :: rest =>
    if pg.isEmpty then ([], 1)
    else
      let kept := pg.filter keep
      if pg.length < perPage then (kept, 1)
      else
        let res := collectAll perPage keep rest
        (kept ++ res.1, res.2 + 1)

/-- An issue record as returned by the GitHub issues endpoint, reduced to the
field the fetch logic inspects: whether the JSON object carries a
`"pull_request"` key (the marker of a pull request disguised as an issue),
plus an identifier standing for the rest of the payload. -/
structure Issue where
  hasPullRequestKey : Bool
  ident : Nat
deriving Repr, DecidableEq

/-- `GitHubClient.fetch_issues` (github_client.py, lines 406-438): paginate
and drop the items carrying a `"pull_request"` key before accumulation. -/
def fetch_issues (perPage : Nat) (script : List (Option (List Issue))) :
    List Issue × Nat :=
  collectAll perPage (fun i => !i.hasPullRequestKey) script

/-- `GitHubClient.fetch_pull_requests` (github_client.py, lines 480-507):
paginate with no per-item filter. -/
def fetch_pull_requests {α : Type} (perPage : Nat)
    (script : List (Option (List α))) : List α × Nat :=
  collectAll perPage (fun _ => true) script

/-- `GitHubClient.fetch_commits` (github_client.py, lines 587-616): paginate
with no per-item filter. -/
def fetch_commits {α : Type} (perPage : Nat)
    (script : List (Option (List α))) : List α × Nat :=
  collectAll perPage (fun _ => true) script

/-- Key order used by `json.dumps(params, sort_keys=True)`: compare the
parameter names. -/
def keyLe (a b : String × String) : Prop := a.1 ≤ b.1

instance : DecidableRel keyLe := fun a b => inferInstanceAs (Decidable (a.1 ≤ b.1))

instance : IsTotal (String × String) keyLe := ⟨fun a b => le_total a.1 b.1⟩

instance : IsTrans (String × String) keyLe := ⟨fun _ _ _ h h2 => le_trans h h2⟩

instance : IsAntisymm (String × String) (fun a b : String × String => a.1 < b.1) :=
  ⟨fun _ _ h1 h2 => absurd h2 (lt_asymm h1)⟩

/-- The canonical parameter order produced by `json.dumps(·, sort_keys=True)`:
the parameter list sorted by key. -/
def sortParams (params : List (String × String)) : List (String × String) :=
  List.insertionSort keyLe params

/-- `GitHubClient._get_cache_key` (github_client.py, lines 82-86), modelled at
the pre-hash level: the source builds `f"{url}_{json.dumps(params,
sort_keys=True)}"` and returns its md5 digest; the digest of the canonical
string is modelled by the canonical (url, key-sorted parameters) pair. -/
def get_cache_key (url : String) (params : List (String × String)) :
    String × List (String × String) :=
  (url, sortParams params)

/-- A stored cache entry as `_get_from_cache` sees it: the file's
modification time, and the payload `json.load` would produce — `none` models
a corrupt or unreadable entry (the `except` branch of the source). -/
structure CacheEntry (α : Type) where
  mtime : Int
  readable : Option α
deriving Repr, DecidableEq

/-- `GitHubClient._get_from_cache` (github_client.py, lines 88-111).
`entry` is the state of the cache file for the requested key (`none`: no
file), `now` is `time.time()`, `ttl` is `self.cache_ttl`.  The source
returns the parsed payload only when caching is on, the file exists, its age
`now - mtime` is `< ttl`, and parsing succeeds; every other path falls
through to `return None`. -/
def get_from_cache {α : Type} (useCache : Bool) (ttl now : Int)
    (entry : Option (CacheEntry α)) : Option α :=
  if useCache = false then none
  else
    match entry with
    | none => none
    | some e => if now - e.mtime < ttl then e.readable else none

/-- The aggregate record built by `fetch_pr_details`: the base pull-request
JSON object (an association list of fields) with the `commits_data` and
`reviews_data` fields added. -/
structure PRDetails (β γ : Type) where
  base : List (String × String)
  commits_data : List β
  reviews_data : List γ
deriving Repr, DecidableEq

/-- `GitHubClient.fetch_pr_details` (github_client.py, lines 509-544).
`pr`, `commits`, `reviews` are the three `_make_request` results (`none`
models Python `None`).  The source checks `if not pr_data` — Python
falsiness, which is also true of an empty JSON object — and otherwise
attaches `commits or []` and `reviews or []`. -/
def fetch_pr_details {β γ : Type} (pr : Option (List (String × String)))
    (commits : Option (List β)) (reviews : Option (List γ)) :
    Option (PRDetails β γ) :=
  match pr with
  | none => none
  | some d => if d.isEmpty then none else some ⟨d, commits.getD [], reviews.getD []⟩

/-- Outcome of downloading one file's content during the code walk:
`fetchFailed` — `_make_request` returned a falsy value; `noContentKey` —
the response carried no `"content"` field; `decodeError` — the
base64/UTF-8 decode raised; `ok text` — the decoded text. -/
inductive FetchedContent where
  | fetchFailed
  | noContentKey
  | decodeError
  | ok (text : String)
deriving Repr, DecidableEq

/-- The fields of a remote file entry that `fetch_code_files` inspects, plus
the scripted outcome of downloading its content. -/
structure FileMeta where
  name : String
  path : String
  size : Nat
  sha : String
  html_url : String
  download : FetchedContent
deriving Repr, DecidableEq

/-- A remote tree entry as listed by the contents endpoint.  A `dir` carries
the result of listing it: `listed = false` models a listing whose
`_make_request` returned a falsy value (the subtree then contributes
nothing).  Entries that are neither files nor directories (e.g. symlinks)
are `other`. -/
inductive RItem where
  | file (meta : FileMeta)
  | dir (name : String) (listed : Bool) (children : List RItem)
  | other (name : String)

/-- The keyword arguments of `fetch_code_files` that drive filtering, after
the `None`-to-default substitution at the top of the function. -/
structure WalkConfig where
  recursive : Bool
  file_extensions : List String
  exclude_dirs : List String
  max_file_size : Nat
deriving Repr, DecidableEq

/-- The record appended for each successfully decoded file
(github_client.py, lines 814-821). -/
structure FileData where
  path : String
  name : String
  content : String
  size : Nat
  sha : String
  url : String
deriving Repr, DecidableEq

/-- Python's `str.endswith`, modelled on the character sequences of the two
strings. -/
def strEndsWith (s suffix : String) : Bool :=
  List.isSuffixOf suffix.data s.data

/-- The file admissibility test of the source (lines 783-796): the extension
allow-list applies only when the configured list is non-empty (Python
truthiness of `file_extensions`), and the file must not exceed
`max_file_size`. -/
def fileAdmissible (cfg : WalkConfig) (m : FileMeta) : Bool :=
  (cfg.file_extensions.isEmpty
      || cfg.file_extensions.any (fun ext => strEndsWith m.name ext))
    && decide (m.size ≤ cfg.max_file_size)

mutual

/-- The per-entry body of the `for item in contents` loop of
`fetch_code_files` (github_client.py, lines 757-828): excluded directories
are skipped, other directories are recursed into when `recursive` is set,
admissible files yield one record when their download decodes, and
everything else contributes nothing. -/
def walkItem (cfg : WalkConfig) : RItem → List FileData
  | RItem.file m =>
    if fileAdmissible cfg m then
      match m.download with
      | FetchedContent.ok text => [⟨m.path, m.name, text, m.size, m.sha, m.html_url⟩]
      | _ => []
    else []
  | RItem.dir name listed children =>
    if name ∈ cfg.exclude_dirs then []
    else if cfg.recursive then
      if listed then walkItems cfg children else []
    else []
  | RItem.other _ => []

/-- The full `for` loop over a directory listing, in listing order. -/
def walkItems (cfg : WalkConfig) : List RItem → List FileData
  | [] => []
  | i :: rest => walkItem cfg i ++ walkItems cfg rest

end

mutual

/-- The paths of the files whose content `fetch_code_files` actually
requests (the `_make_request(item["url"], ...)` call at line 799): exactly
the admissible files reachable through non-excluded, successfully listed
directories. -/
def requestedItem (cfg : WalkConfig) : RItem → List String
  | RItem.file m => if fileAdmissible cfg m then [m.path] else []
  | RItem.dir name listed children =>
    if name ∈ cfg.exclude_dirs then []
    else if cfg.recursive then
      if listed then requestedItems cfg children else []
    else []
  | RItem.other _ => []

/-- `requestedItem` over a directory listing, in listing order. -/
def requestedItems (cfg : WalkConfig) : List RItem → List String
  | [] => []
  | i :: rest => requestedItem cfg i ++ requestedItems cfg rest

end

/-- `GitHubClient.fetch_code_files` (github_client.py, lines 688-833) for one
root call: `listed` and `rootChildren` are the result of listing the root
path (`if not contents: return []`). -/
def fetch_code_files (cfg : WalkConfig) (listed : Bool)
    (rootChildren : List RItem) : List FileData :=
  if listed then walkItems cfg rootChildren else []

/-- The default filters substituted for `None` arguments at the top of
`fetch_code_files` (github_client.py, lines 711-732). -/
def defaultWalkConfig : WalkConfig :=
  { recursive := true
    file_extensions := [".py", ".js", ".java", ".cpp", ".h", ".c", ".ts", ".go", ".rb"]
    exclude_dirs := [".git", "node_modules", "venv", "__pycache__", "build", "dist"]
    max_file_size := 1048576 }

set_option linter.unusedVariables false in
/-- The `"code"` branch of `GitHubDataLoader._load_content_type`
(data_loader.py, lines 60-65): it receives the caller's `max_files` limit
but calls `self.github_client.fetch_code_files()` with no arguments, so the
limit parameter is accepted and ignored — exactly as in the source. -/
def load_content_type_code (max_files : Option Nat) (listed : Bool)
    (rootChildren : List RItem) : List FileData :=
  fetch_code_files defaultWalkConfig listed rootChildren

/-- Modelled from the spec: the "binary/media/log exclusion set" of §4.5 —
extensions that the spec says are always skipped.  No such set exists
anywhere in the source (`fetch_code_files` filters only by the extension
allow-list, the directory exclusion list and `max_file_size`); this
definition gives the spec's phrase a concrete referent so the claim can be
stated. -/
def binaryMediaLogExclusion : List String :=
  [".log", ".png", ".jpg", ".jpeg", ".gif", ".mp4", ".mp3", ".bin", ".exe", ".so", ".zip"]

/-- A scripted 403 response whose rate-limit headers show zero remaining
quota and a reset 5 seconds away (`remaining=0`, `reset_at = now + 5`). -/
def quotaResp : Resp Nat := ⟨false, 403, 0, true, 0, 105, none, 100⟩

/-- A scripted successful response carrying payload `7`. -/
def okResp : Resp Nat := ⟨false, 200, 7, true, 100, 0, none, 100⟩

/-- A scripted plain 404 response. -/
def notFoundResp : Resp Nat := ⟨false, 404, 0, true, 40, 0, none, 100⟩

/-- Claim C3: a 401, 404 or 422 response makes the retry loop return `None`
immediately: one HTTP call, no sleep of any kind, no further attempt, and
the attempt counter left where it was. -/
theorem fatal_status_single_attempt {α : Type} (maxRetries retries : Nat)
    (r : Resp α) (rest : List (Resp α))
    (hmax : retries < maxRetries) (hnet : r.netFail = false)
    (hstatus : r.status = 401 ∨ r.status = 404 ∨ r.status = 422) :
    runExec maxRetries retries (r :: rest) =
      ⟨none, 1, [], retries⟩ := by
  rcases hstatus with h | h | h <;>
    simp [runExec, hmax, hnet, h]

/-- Witness for C3: the default five-attempt executor handed a single 404
returns `None` after exactly one attempt with no sleeps. -/
theorem fatal_status_single_attempt_witness :
    runExec 5 0 [notFoundResp] = ⟨none, 1, [], 0⟩ :=
  fatal_status_single_attempt 5 0 notFoundResp [] (by decide) rfl
    (Or.inr (Or.inl rfl))

/-- Counterexample for C2: the quota-exhaustion retry DOES count against the
bounded attempt counter.  After one quota wait the counter observed on the
successful run is `1`, not `0` as the claim requires; consequently five
consecutive quota-limited responses exhaust the budget of `max_retries = 5`
and the call returns `None` without ever reaching the sixth, successful
response — impossible if quota retries were free. -/
theorem quota_wait_counts_counterexample :
    (runExec 5 0 [quotaResp, okResp]).retriesUsed = 1 ∧
    (runExec 5 0 [quotaResp, okResp]).result = some 7 ∧
    (runExec 5 0 (List.replicate 5 quotaResp ++ [okResp])).result = none ∧
    (runExec 5 0 (List.replicate 5 quotaResp ++ [okResp])).httpCalls = 5 := by
  decide

/-- Claim C2 (amended): on a 403/429 whose headers show zero remaining quota,
the executor sleeps `max(reset - now, 0) + 2` seconds and then retries, and
that retry increments the bounded attempt counter (it is not free). -/
theorem quota_wait_retry_increments {α : Type} (maxRetries retries : Nat)
    (r : Resp α) (rest : List (Resp α))
    (hmax : retries < maxRetries) (hnet : r.netFail = false)
    (hstatus : r.status = 403 ∨ r.status = 429)
    (hhdr : r.hasRemainingHdr = true) (hrem : r.remainingHdr = 0) :
    runExec maxRetries retries (r :: rest) =
      { result := (runExec maxRetries (retries + 1) rest).result
        httpCalls := (runExec maxRetries (retries + 1) rest).httpCalls + 1
        sleeps := SleepEvent.rlWait (max (r.resetHdr - r.now) 0 + 2) ::
          (runExec maxRetries (retries + 1) rest).sleeps
        retriesUsed := (runExec maxRetries (retries + 1) rest).retriesUsed } := by
  rcases hstatus with h | h <;>
    simp [runExec, hmax, hnet, h, hhdr, hrem]

/-- Witness for the amended C2: with `remaining=0` and `reset_at = now + 5`
the executor records a 7-second wait (5 until reset plus the 2-second
margin), then retries with the attempt counter moved from 0 to 1 and
succeeds. -/
theorem quota_wait_retry_increments_witness :
    runExec 5 0 [quotaResp, okResp] =
      { result := (runExec 5 1 [okResp]).result
        httpCalls := (runExec 5 1 [okResp]).httpCalls + 1
        sleeps := SleepEvent.rlWait (max (quotaResp.resetHdr - quotaResp.now) 0 + 2) ::
          (runExec 5 1 [okResp]).sleeps
        retriesUsed := (runExec 5 1 [okResp]).retriesUsed } :=
  quota_wait_retry_increments 5 0 quotaResp [okResp] (by decide) rfl
    (Or.inl rfl) rfl rfl

/-- Pagination with a per-page filter equals raw pagination followed by one
filter of the concatenation, and the number of pages requested never depends
on the filter. -/
theorem collectAll_eq_filter_raw {α : Type} (perPage : Nat) (keep : α → Bool)
    (script : List (Option (List α))) :
    collectAll perPage keep script =
      (((collectAll perPage (fun _ => true) script).1).filter keep,
        (collectAll perPage (fun _ => true) script).2) := by
  induction script with
  | nil => simp [collectAll]
  | cons hd rest ih =>
    cases hd with
    | none => simp [collectAll]
    | some pg =>
      by_cases hemp : pg.isEmpty
      · simp [collectAll, hemp]
      · by_cases hlen : pg.length < perPage
        · simp [collectAll, hemp, hlen, List.filter_true]
        · simp [collectAll, hemp, hlen, List.filter_true, List.filter_append, ih]

/-- Claim C5: for every page script, the issue fetch returns exactly the
pull-request-free subsequence of the raw accumulated pages in server order
(the per-page filter commutes with accumulation), and it requests exactly
the same pages as the unfiltered collector — the end-of-pagination decision
is based on raw page sizes only. -/
theorem fetch_issues_filter_and_raw_pagination (perPage : Nat)
    (script : List (Option (List Issue))) :
    (fetch_issues perPage script).1 =
      ((fetch_pull_requests perPage script).1).filter
        (fun i => !i.hasPullRequestKey) ∧
    (fetch_issues perPage script).2 = (fetch_pull_requests perPage script).2 := by
  have h := collectAll_eq_filter_raw perPage
    (fun i : Issue => !i.hasPullRequestKey) script
  unfold fetch_issues fetch_pull_requests
  rw [h]
  exact ⟨rfl, rfl⟩

/-- Claim C4: on a script of full pages followed by a short page, the
collector returns the in-order concatenation of the (possibly filtered)
pages including the short one and requests exactly one page per accumulated
page; on a script of full pages followed by an absent page (a failed
request), it returns the concatenation of the full pages without raising.
Instances: `fetch_issues`, `fetch_pull_requests`, `fetch_commits`. -/
theorem collectAll_pages {α : Type} (perPage : Nat) (keep : α → Bool)
    (fulls : List (List α)) (lastPg : List α) (rest : List (Option (List α)))
    (hpos : 0 < perPage) (hfull : ∀ pg ∈ fulls, pg.length = perPage)
    (hshort : lastPg.length < perPage) :
    collectAll perPage keep (fulls.map some ++ some lastPg :: rest) =
      ((fulls.map (List.filter keep)).flatten ++ lastPg.filter keep,
        fulls.length + 1) ∧
    collectAll perPage keep (fulls.map some ++ none :: rest) =
      ((fulls.map (List.filter keep)).flatten, fulls.length + 1) := by
  induction fulls with
  | nil =>
    constructor
    · by_cases hemp : lastPg.isEmpty
      · have : lastPg = [] := List.isEmpty_iff.mp hemp
        subst this
        simp [collectAll]
      · simp [collectAll, hemp, hshort]
    · simp [collectAll]
  | cons pg fulls ih =>
    have hpg : pg.length = perPage := hfull pg (by simp)
    have hrest : ∀ q ∈ fulls, q.length = perPage := fun q hq => hfull q (by simp [hq])
    have hemp : ¬pg.isEmpty = true := by
      rw [List.isEmpty_iff_length_eq_zero]
      omega
    have hlen : ¬pg.length < perPage := by omega
    obtain ⟨ih1, ih2⟩ := ih hrest
    have hstep : ∀ tail : List (Option (List α)),
        collectAll perPage keep (some pg :: tail) =
          (pg.filter keep ++ (collectAll perPage keep tail).1,
            (collectAll perPage keep tail).2 + 1) := by
      intro tail
      simp [collectAll, hemp, hlen]
    constructor
    · rw [List.map_cons, List.cons_append, hstep, ih1]
      simp [List.append_assoc]
    · rw [List.map_cons, List.cons_append, hstep, ih2]
      simp

/-- Witness for C4: two full pages of two items, then a short page of one,
then garbage that is never requested; the collector returns all five items
in order and requests three pages, and with the short page replaced by a
failure it returns the four items of the full pages. -/
theorem collectAll_pages_witness :
    collectAll 2 (fun _ : Nat => true)
        ([[1, 2], [3, 4]].map some ++ some [5] :: [some [9]]) =
      (([[1, 2], [3, 4]].map (List.filter (fun _ => true))).flatten ++
        [5].filter (fun _ => true), 2 + 1) ∧
    collectAll 2 (fun _ : Nat => true)
        ([[1, 2], [3, 4]].map some ++ none :: [some [9]]) =
      (([[1, 2], [3, 4]].map (List.filter (fun _ => true))).flatten, 2 + 1) :=
  collectAll_pages 2 (fun _ => true) [[1, 2], [3, 4]] [5] [some [9]]
    (by decide) (by decide) (by decide)

/-- The canonicalization sorts without losing or duplicating parameters. -/
theorem sortParams_perm (l : List (String × String)) : (sortParams l).Perm l :=
  List.perm_insertionSort keyLe l

/-- The canonicalization is sorted by key. -/
theorem sortParams_sorted (l : List (String × String)) :
    List.Sorted keyLe (sortParams l) :=
  List.sorted_insertionSort keyLe l

/-- With distinct keys the canonicalization is strictly sorted by key. -/
theorem sortParams_sorted_lt (l : List (String × String))
    (hnd : (l.map Prod.fst).Nodup) :
    List.Sorted (fun a b : String × String => a.1 < b.1) (sortParams l) := by
  have hnd2 : ((sortParams l).map Prod.fst).Nodup :=
    (((sortParams_perm l).map Prod.fst).symm).nodup hnd
  have hne : List.Pairwise (fun a b : String × String => a.1 ≠ b.1) (sortParams l) :=
    List.pairwise_map.mp hnd2
  have hle : List.Pairwise keyLe (sortParams l) := sortParams_sorted l
  exact List.Pairwise.imp (fun h => lt_of_le_of_ne h.1 h.2) (hle.and hne)

/-- Two parameter dictionaries with the same key-value set canonicalize
identically. -/
theorem sortParams_eq_of_perm (ps qs : List (String × String))
    (h : ps.Perm qs) (hnd : (ps.map Prod.fst).Nodup) :
    sortParams ps = sortParams qs := by
  have hq : (qs.map Prod.fst).Nodup := ((h.map Prod.fst)).nodup hnd
  exact List.eq_of_perm_of_sorted
    ((sortParams_perm ps).trans (h.trans (sortParams_perm qs).symm))
    (sortParams_sorted_lt ps hnd) (sortParams_sorted_lt qs hq)

/-- Claim C6: the cache fingerprint is deterministic and key-order
independent — two parameter dictionaries holding the same key-value pairs
(a dictionary has distinct keys) fingerprint identically — and replacing the
value of any present key with a different one changes the fingerprint. -/
theorem cache_key_order_independent_value_sensitive :
    (∀ (url : String) (ps qs : List (String × String)), ps.Perm qs →
      (ps.map Prod.fst).Nodup → get_cache_key url ps = get_cache_key url qs) ∧
    (∀ (url : String) (ps : List (String × String)) (k v v' : String),
      (k, v) ∈ ps → v ≠ v' →
      get_cache_key url ps ≠
        get_cache_key url (ps.map (fun p => if p.1 = k then (k, v') else p))) := by
  constructor
  · intro url ps qs hperm hnd
    unfold get_cache_key
    rw [sortParams_eq_of_perm ps qs hperm hnd]
  · intro url ps k v v' hmem hne heq
    have hsort : sortParams ps =
        sortParams (ps.map (fun p => if p.1 = k then (k, v') else p)) :=
      congrArg Prod.snd heq
    have hperm : ps.Perm (ps.map (fun p => if p.1 = k then (k, v') else p)) :=
      ((sortParams_perm ps).symm).trans
        (hsort ▸ sortParams_perm (ps.map (fun p => if p.1 = k then (k, v') else p)))
    have hmem2 : (k, v) ∈ ps.map (fun p => if p.1 = k then (k, v') else p) :=
      hperm.mem_iff.mp hmem
    obtain ⟨p, hp, hfp⟩ := List.mem_map.mp hmem2
    by_cases hpk : p.1 = k
    · rw [if_pos hpk] at hfp
      exact hne (Prod.mk.injEq _ _ _ _ ▸ hfp).2.symm
    · rw [if_neg hpk] at hfp
      exact hpk (congrArg Prod.fst hfp)

/-- Witness for C6: a concrete two-parameter dictionary fingerprints the
same after swapping its entries, and differently after changing the value
stored under `"state"`. -/
theorem cache_key_witness :
    get_cache_key "https://api.github.com/repos/o/r/issues"
        [("state", "all"), ("page", "1")] =
      get_cache_key "https://api.github.com/repos/o/r/issues"
        [("page", "1"), ("state", "all")] ∧
    get_cache_key "https://api.github.com/repos/o/r/issues"
        [("state", "all"), ("page", "1")] ≠
      get_cache_key "https://api.github.com/repos/o/r/issues"
        [("state", "open"), ("page", "1")] := by
  constructor
  · exact cache_key_order_independent_value_sensitive.1 _ _ _
      (by decide) (by decide)
  · have h := cache_key_order_independent_value_sensitive.2
      "https://api.github.com/repos/o/r/issues"
      [("state", "all"), ("page", "1")] "state" "all" "open"
      (by decide) (by decide)
    have hmap : [("state", "all"), ("page", "1")].map
        (fun p : String × String => if p.1 = "state" then ("state", "open") else p) =
        [("state", "open"), ("page", "1")] := by decide
    rw [hmap] at h
    exact h

/-- Claim C7: with caching enabled, a cache read returns absent exactly when
no entry exists, or the entry's age `now - stored_at` has reached the TTL
(the entry staying physically present), or the stored entry is corrupt;
otherwise it returns the stored payload.  The embedding is a total
function, so no error ever escapes to the caller. -/
theorem get_from_cache_absent_iff {α : Type} (ttl now : Int)
    (entry : Option (CacheEntry α)) :
    (get_from_cache true ttl now entry = none ↔
      entry = none ∨
      (∃ e, entry = some e ∧ ttl ≤ now - e.mtime) ∨
      (∃ e, entry = some e ∧ e.readable = none)) ∧
    (∀ e p, entry = some e → e.readable = some p → now - e.mtime < ttl →
      get_from_cache true ttl now entry = some p) := by
  constructor
  · cases entry with
    | none => simp [get_from_cache]
    | some e =>
      by_cases hage : now - e.mtime < ttl
      · cases hr : e.readable with
        | none => simp [get_from_cache, hage, hr]
        | some p => simp [get_from_cache, hage, hr]
      · simp [get_from_cache, hage]; omega
  · intro e p hent hr hage
    subst hent
    simp [get_from_cache, hage, hr]

/-- Witness for C7: a fresh, readable entry is returned; the same entry
aged past the TTL is reported absent while still stored. -/
theorem get_from_cache_witness :
    get_from_cache true 86400 1000 (some (⟨900, some 42⟩ : CacheEntry Nat)) =
      some 42 ∧
    get_from_cache true 86400 90000 (some (⟨900, some 42⟩ : CacheEntry Nat)) =
      none := by
  constructor
  · exact (get_from_cache_absent_iff 86400 1000
      (some ⟨900, some 42⟩)).2 ⟨900, some 42⟩ 42 rfl rfl (by decide)
  · exact (get_from_cache_absent_iff 86400 90000
      (some (⟨900, some 42⟩ : CacheEntry Nat))).1.mpr
      (Or.inr (Or.inl ⟨⟨900, some 42⟩, rfl, by decide⟩))

/-- Counterexample for C9: the base fetch can succeed with an empty JSON
object — `_make_request` returned a value, not `None` — yet
`fetch_pr_details` still returns `None`, because the source tests Python
falsiness (`if not pr_data`), not absence.  So "absent iff the base fetch
fails" is false as stated. -/
theorem pr_details_empty_base_counterexample :
    fetch_pr_details (some ([] : List (String × String)))
        (some [(0 : Nat)]) (some [(0 : Nat)]) = none ∧
    (some ([] : List (String × String))) ≠ none := by
  exact ⟨rfl, by decide⟩

/-- Claim C9 (amended): fetching pull-request details returns absent iff the
base pull-request fetch yields no usable data — `None` or an empty record
(Python falsiness); a failure of the commits or reviews sub-request is never
surfaced and yields an empty `commits_data` or `reviews_data` list. -/
theorem pr_details_absent_iff {β γ : Type} (pr : Option (List (String × String)))
    (commits : Option (List β)) (reviews : Option (List γ)) :
    (fetch_pr_details pr commits reviews = none ↔
      pr = none ∨ pr = some []) ∧
    (∀ d, pr = some d → d ≠ [] →
      fetch_pr_details pr commits reviews =
        some ⟨d, commits.getD [], reviews.getD []⟩) := by
  constructor
  · cases pr with
    | none => simp [fetch_pr_details]
    | some d =>
      cases d with
      | nil => simp [fetch_pr_details]
      | cons hd tl => simp [fetch_pr_details]
  · intro d hpr hne
    subst hpr
    simp [fetch_pr_details, List.isEmpty_iff, hne]

/-- Witness for (amended) C9: a non-empty base record with a failed commits
fetch and a successful reviews fetch yields the record with an empty
`commits_data` and the fetched `reviews_data`. -/
theorem pr_details_absent_iff_witness :
    fetch_pr_details (some [("title", "fix")]) (none : Option (List Nat))
        (some [(5 : Nat)]) =
      some ⟨[("title", "fix")], [], [5]⟩ := by
  have h := (pr_details_absent_iff (some [("title", "fix")])
    (none : Option (List Nat)) (some [(5 : Nat)])).2
    [("title", "fix")] rfl (by decide)
  simpa using h

/-- The per-entry walk distributes over concatenation of listings. -/
theorem walkItems_append (cfg : WalkConfig) (l1 l2 : List RItem) :
    walkItems cfg (l1 ++ l2) = walkItems cfg l1 ++ walkItems cfg l2 := by
  induction l1 with
  | nil => simp [walkItems]
  | cons i rest ih => simp [walkItems, ih]

/-- Claim C10: a file whose downloaded content is missing, lacks the
`content` field, or fails base64/UTF-8 decoding contributes nothing and the
walk continues around it — the records of all other entries are unchanged —
while a file whose download decodes to `t` yields exactly one record
carrying its path, name, decoded content, size, sha and url. -/
theorem walk_omits_undecodable :
    (∀ (cfg : WalkConfig) (pre post : List RItem) (m : FileMeta),
      (∀ t, m.download ≠ FetchedContent.ok t) →
      walkItems cfg (pre ++ RItem.file m :: post) =
        walkItems cfg pre ++ walkItems cfg post) ∧
    (∀ (cfg : WalkConfig) (m : FileMeta) (t : String),
      fileAdmissible cfg m = true → m.download = FetchedContent.ok t →
      walkItem cfg (RItem.file m) =
        [⟨m.path, m.name, t, m.size, m.sha, m.html_url⟩]) := by
  constructor
  · intro cfg pre post m hbad
    have hfile : walkItem cfg (RItem.file m) = [] := by
      by_cases hadm : fileAdmissible cfg m
      · cases hdl : m.download with
        | ok t => exact absurd hdl (hbad t)
        | fetchFailed => simp [walkItem, hadm, hdl]
        | noContentKey => simp [walkItem, hadm, hdl]
        | decodeError => simp [walkItem, hadm, hdl]
      · simp [walkItem, hadm]
    rw [walkItems_append]
    simp [walkItems, hfile]
  · intro cfg m t hadm hdl
    simp [walkItem, hadm, hdl]

/-- Witness for C10: between two decodable `.py` files, a file whose
download lacks usable content is dropped; the two good records are returned
unchanged, each carrying path, name, decoded content, size, sha and url. -/
theorem walk_omits_undecodable_witness :
    walkItems defaultWalkConfig
        ([RItem.file ⟨"a.py", "src/a.py", 10, "s1", "u1", FetchedContent.ok "A"⟩] ++
          RItem.file ⟨"bad.py", "src/bad.py", 10, "s2", "u2",
            FetchedContent.decodeError⟩ ::
          [RItem.file ⟨"c.py", "src/c.py", 10, "s3", "u3", FetchedContent.ok "C"⟩]) =
      walkItems defaultWalkConfig
          [RItem.file ⟨"a.py", "src/a.py", 10, "s1", "u1", FetchedContent.ok "A"⟩] ++
        walkItems defaultWalkConfig
          [RItem.file ⟨"c.py", "src/c.py", 10, "s3", "u3", FetchedContent.ok "C"⟩] ∧
    walkItem defaultWalkConfig
        (RItem.file ⟨"a.py", "src/a.py", 10, "s1", "u1", FetchedContent.ok "A"⟩) =
      [⟨"src/a.py", "a.py", "A", 10, "s1", "u1"⟩] := by
  constructor
  · exact walk_omits_undecodable.1 defaultWalkConfig _ _
      ⟨"bad.py", "src/bad.py", 10, "s2", "u2", FetchedContent.decodeError⟩
      (fun t h => by cases h)
  · exact walk_omits_undecodable.2 defaultWalkConfig
      ⟨"a.py", "src/a.py", 10, "s1", "u1", FetchedContent.ok "A"⟩ "A"
      (by decide) rfl

/-- Counterexample for C8: the source has no binary/media/log exclusion set.
With the allow-list configured as `[".log"]`, the walk downloads the content
of `logs/debug.log` even though `.log` belongs to the spec's binary/media/log
exclusion set, falsifying the claimed "only if" condition. -/
theorem log_extension_fetched_counterexample :
    requestedItems
        { recursive := true, file_extensions := [".log"], exclude_dirs := [],
          max_file_size := 1048576 }
        [RItem.file ⟨"debug.log", "logs/debug.log", 10, "abc", "u",
          FetchedContent.ok "hello"⟩] = ["logs/debug.log"] ∧
    ".log" ∈ binaryMediaLogExclusion := by
  constructor
  · simp only [requestedItems, requestedItem]
    have : fileAdmissible
        { recursive := true, file_extensions := [".log"], exclude_dirs := [],
          max_file_size := 1048576 }
        ⟨"debug.log", "logs/debug.log", 10, "abc", "u",
          FetchedContent.ok "hello"⟩ = true := by decide
    simp [this]
  · decide

/-- Claim C8 (amended): a file's content is requested exactly when the entry
is a file whose name matches the configured extension allow-list (the
allow-list applies only when it is non-empty) and whose size does not exceed
`max_file_size`; directory entries named in the excluded-directory list are
skipped entirely (not recursed into, yielding nothing), and entries that are
neither files nor directories yield nothing.  There is no separate
binary/media/log exclusion in the code. -/
theorem walk_admissibility_characterization :
    (∀ (cfg : WalkConfig) (files : List FileMeta),
      requestedItems cfg (files.map RItem.file) =
        (files.filter (fun m => fileAdmissible cfg m)).map (fun m => m.path)) ∧
    (∀ (cfg : WalkConfig) (name : String) (listed : Bool) (children : List RItem),
      name ∈ cfg.exclude_dirs →
      requestedItem cfg (RItem.dir name listed children) = [] ∧
        walkItem cfg (RItem.dir name listed children) = []) ∧
    (∀ (cfg : WalkConfig) (name : String),
      requestedItem cfg (RItem.other name) = [] ∧
        walkItem cfg (RItem.other name) = []) := by
  refine ⟨?_, ?_, ?_⟩
  · intro cfg files
    induction files with
    | nil => simp [requestedItems]
    | cons m rest ih =>
      by_cases hadm : fileAdmissible cfg m
      · simp [requestedItems, requestedItem, hadm, ih, List.filter_cons]
      · simp [requestedItems, requestedItem, hadm, ih, List.filter_cons]
  · intro cfg name listed children hmem
    exact ⟨by simp [requestedItem, hmem], by simp [walkItem, hmem]⟩
  · intro cfg name
    exact ⟨by simp [requestedItem], by simp [walkItem]⟩

/-- Witness for the amended C8: with the default configuration, of three
files — a small `.py`, a `.md`, and an oversized `.py` — only the small
`.py` has its content requested; a directory named `node_modules` is skipped
entirely. -/
theorem walk_admissibility_witness :
    requestedItems defaultWalkConfig
        ([⟨"a.py", "a.py", 10, "s1", "u1", FetchedContent.ok "A"⟩,
          ⟨"README.md", "README.md", 10, "s2", "u2", FetchedContent.ok "B"⟩,
          ⟨"big.py", "big.py", 2000000, "s3", "u3", FetchedContent.ok "C"⟩].map
          RItem.file) =
      ([⟨"a.py", "a.py", 10, "s1", "u1", FetchedContent.ok "A"⟩,
        ⟨"README.md", "README.md", 10, "s2", "u2", FetchedContent.ok "B"⟩,
        ⟨"big.py", "big.py", 2000000, "s3", "u3", FetchedContent.ok "C"⟩].filter
        (fun m => fileAdmissible defaultWalkConfig m)).map (fun m => m.path) ∧
    requestedItem defaultWalkConfig (RItem.dir "node_modules" true
        [RItem.file ⟨"x.py", "node_modules/x.py", 1, "s", "u",
          FetchedContent.ok "X"⟩]) = [] := by
  constructor
  · exact walk_admissibility_characterization.1 defaultWalkConfig _
  · exact (walk_admissibility_characterization.2.1 defaultWalkConfig
      "node_modules" true _ (by decide)).1

/-- Claim C1 evaluated at the failing input: loading code content with a
budget of `max_files = 1` over a root listing of two small admissible `.py`
files returns both records — the budget is accepted by the loader but never
forwarded, and the tree walk has no budget parameter at all, so the claimed
cutoff does not exist. -/
theorem max_files_budget_ignored :
    (load_content_type_code (some 1) true
        [RItem.file ⟨"a.py", "a.py", 10, "s1", "u1", FetchedContent.ok "print(1)"⟩,
         RItem.file ⟨"b.py", "b.py", 10, "s2", "u2",
           FetchedContent.ok "print(2)"⟩]).length = 2 := by
  have h1 : fileAdmissible defaultWalkConfig
      ⟨"a.py", "a.py", 10, "s1", "u1", FetchedContent.ok "print(1)"⟩ = true := by
    decide
  have h2 : fileAdmissible defaultWalkConfig
      ⟨"b.py", "b.py", 10, "s2", "u2", FetchedContent.ok "print(2)"⟩ = true := by
    decide
  simp [load_content_type_code, fetch_code_files, walkItems, walkItem, h1, h2]

end GithubRag
